import Mathlib

/-!
Verification of `SolarPV/NasaData.py` (SolarPV-Simulator).

Shallow embedding conventions:
* A Python `str` is modelled as `List Char` (`PyStr`); the byte strings that
  travel on the wire in `buildUrl` are modelled as `List Nat` with every
  entry `< 256`.
* Python dicts (which preserve insertion order) are modelled as association
  lists, in insertion order.
* `None` and IEEE NaN results are modelled as `Option.none`; a Python
  exception escaping a function is modelled with `Except`.
* `dt.date.today()` is modelled by passing the current calendar year as an
  explicit argument.
-/

set_option autoImplicit false

namespace SolarPV

/-- A Python string, as its list of characters. -/
abbrev PyStr := List Char

/-- `str.join` over a separator character: `joinSep s [a, b, c] = a ++ s :: b ++ s :: c`.
Embeds Python `",".join(parts)` (NasaData.py line 117). -/
def joinSep {α : Type} (sep : α) : List (List α) → List α
  | [] => []
  | [p] => p
  | p :: ps => p ++ sep :: joinSep sep ps

/-- `str.split` on a single-character separator, Python semantics:
`splitSep s [] = [[]]` (Python `"".split(",") == [""]`). Embeds
`reqparms.split(',')` (NasaData.py line 130). -/
def splitSep {α : Type} [DecidableEq α] (sep : α) : List α → List (List α)
  | [] => [[]]
  | c :: cs =>
    if c = sep then [] :: splitSep sep cs
    else
      match splitSep sep cs with
      | [] => [[c]]
      | t :: ts => (c :: t) :: ts

/-! ### `formulateRequest` (NasaData.py lines 96-130)

The source builds a dict of query parameters, turns it into a URL with
`buildUrl`, and returns `(url, reqparms.split(','))`.  We expose the query
parameter mapping itself (the exact key/value pairs handed to `buildUrl`,
in insertion order) together with the returned code list; `buildUrl`'s
reversible percent-encoding of that mapping is verified separately. -/

/-- `str(int)` for the year arithmetic of `formulateRequest`. -/
def intToStr (z : ℤ) : PyStr := (toString z).toList

/-- The fixed `stdparms` table (NasaData.py lines 100-106). -/
def stdparms : List (PyStr × PyStr) :=
  [("T10M".toList, "Temperature @ 10m (c)".toList),
   ("T10M_MAX".toList, "Max Daily Temperature (c)".toList),
   ("T10M_MIN".toList, "Min Daily Temperature (c)".toList),
   ("WS10M".toList, "Surface Wind Speed (m/s)".toList),
   ("WS10M_MAX".toList, "Max Daily Wind Speed (m/s)".toList),
   ("WS10M_MIN".toList, "Min Daily Wind Speed (m/s)".toList)]

/-- The six canonical parameter codes, in canonical order. -/
def stdparmCodes : List PyStr := stdparms.map Prod.fst

/-- `formulateRequest(lat, lon, selectparms)` (NasaData.py lines 96-130).
`currentYear` stands for `dt.date.today().year`; the result is the query
parameter mapping passed to `buildUrl` (insertion order of the source's
`query_parameters` dict) paired with `reqparms.split(',')`. -/
def formulateRequest (currentYear : ℤ) (lat lon : PyStr)
    (selectparms : Option (List PyStr)) : List (PyStr × PyStr) × List PyStr :=
  let baseyear := currentYear - 1
  let startdate := intToStr (baseyear - 9) ++ "0101".toList
  let enddate := intToStr baseyear ++ "1231".toList
  -- for itm in stdparms: if selectparms == None or itm[0] in selectparms: parms.append(itm[0])
  let parms := stdparmCodes.filter fun c =>
    match selectparms with
    | none => true
    | some sel => decide (c ∈ sel)
  let reqparms := joinSep ',' parms
  let query_parameters : List (PyStr × PyStr) :=
    [("parameters".toList, reqparms),
     ("start".toList, startdate),
     ("end".toList, enddate),
     ("community".toList, "sb".toList),
     ("format".toList, "json".toList),
     ("latitude".toList, lat),
     ("longitude".toList, lon),
     ("user".toList, "anonymous".toList)]
  (query_parameters, splitSep ',' reqparms)

/-! ### `getLocationData` (NasaData.py lines 52-66)

The parsed JSON response: `response['geometry']` and `['coordinates']` are
dict lookups whose absence raises `KeyError` (caught by the source's
`except KeyError`); `coordinates` is the 3-element array `[lon, lat, elev]`.
`None` results are `Option.none`; the `print` diagnostics are returned as a
message list. -/

/-- The `geometry` object of a NASA response; `coordinates = none` models a
missing `coordinates` key. -/
structure Geometry where
  coordinates : Option (ℚ × ℚ × ℚ)
deriving DecidableEq

/-- A parsed NASA JSON response; `geometry = none` models a missing
`geometry` key. -/
structure NasaResponse where
  geometry : Option Geometry
deriving DecidableEq

/-- `getLocationData(dtin)` (NasaData.py lines 52-66), on the parsed JSON.
The Python guard is `if (coords[2] and coords[2] != -999)`: numeric
truthiness makes `coords[2]` falsy exactly when it is `0`. -/
def getLocationData (resp : NasaResponse) :
    (Option ℚ × Option ℚ × Option ℚ) × List String :=
  match resp.geometry with
  | none => ((none, none, none), ["Failed to parse elevation response"])
  | some g =>
    match g.coordinates with
    | none => ((none, none, none), ["Failed to parse elevation response"])
    | some (lon, lat, z) =>
      let msg := "found location elevation, z=" ++ toString z
      if z ≠ 0 ∧ z ≠ -999 then ((some lon, some lat, some z), [msg])
      else ((none, none, none), [msg])

/-- A transport-level failure of the HTTP collaborator
(`requests.exceptions.ConnectionError`: connection refused, DNS failure, ...). -/
structure TransportFailure where
  msg : String
deriving DecidableEq

/-- The query parameter dict built by `getSiteElevation` (NasaData.py
lines 76-86), in insertion order. -/
def getSiteElevation_query (lat lon : PyStr) : List (PyStr × PyStr) :=
  [("parameters".toList, "T2M".toList),
   ("start".toList, "20230101".toList),
   ("end".toList, "20230101".toList),
   ("community".toList, "sb".toList),
   ("format".toList, "json".toList),
   ("latitude".toList, lat),
   ("longitude".toList, lon),
   ("user".toList, "solarpv_simulator".toList)]

/-- `getSiteElevation(lat, lon)` (NasaData.py lines 69-94). The outcome of
`requests.get(url).text` plus JSON parsing is passed as `fetch`; the
source's `except requests.exceptions.ConnectionError` branch returns the
unknown triple. -/
def getSiteElevation (lat lon : PyStr)
    (fetch : Except TransportFailure NasaResponse) :
    Option ℚ × Option ℚ × Option ℚ :=
  match fetch with
  | .ok data => (getLocationData data).1
  | .error _ => (none, none, none)

/-! ### Dates and `pandas` day-of-year -/

/-- A calendar date, as produced by `pd.to_datetime` on the 8-digit date
keys of the NASA payload. -/
structure Date where
  year : ℤ
  month : ℕ
  day : ℕ
deriving DecidableEq

/-- Gregorian leap-year rule (as used by `pandas` timestamps). -/
def isLeap (y : ℤ) : Bool := y % 4 == 0 && (y % 100 != 0 || y % 400 == 0)

/-- Days in month `m` (1-12) of a (non-)leap year. -/
def daysInMonth (leap : Bool) : ℕ → ℕ
  | 1 => 31
  | 2 => if leap then 29 else 28
  | 3 => 31
  | 4 => 30
  | 5 => 31
  | 6 => 30
  | 7 => 31
  | 8 => 31
  | 9 => 30
  | 10 => 31
  | 11 => 30
  | 12 => 31
  | _ => 0

/-- Total days in months `1..m`. -/
def monthCumDays (leap : Bool) : ℕ → ℕ
  | 0 => 0
  | m + 1 => monthCumDays leap m + daysInMonth leap (m + 1)

/-- `DatetimeIndex.dayofyear` (NasaData.py line 149). -/
def dayOfYear (d : Date) : ℕ := monthCumDays (isLeap d.year) (d.month - 1) + d.day

/-- A date `pd.to_datetime` accepts: month 1-12, day within the month. -/
def ValidDate (d : Date) : Prop :=
  1 ≤ d.month ∧ d.month ≤ 12 ∧ 1 ≤ d.day ∧ d.day ≤ daysInMonth (isLeap d.year) d.month

instance (d : Date) : Decidable (ValidDate d) := by
  unfold ValidDate; infer_instance

/-! ### The per-column statistics (NasaData.py lines 153-165) -/

/-- One row of a climatology table: the `Min`, `Max`, `S-Mean` and `STDV`
columns.  `STDVsq` holds the square of pandas `std()` (the unbiased sample
variance, exact in `ℚ`); `none` models the `NaN` that pandas produces for a
single-element group. -/
structure Stats where
  Min : Option ℚ
  Max : Option ℚ
  SMean : Option ℚ
  STDVsq : Option ℚ
deriving DecidableEq

/-- `dg[col].min()/.max()/.mean()/.std()` of one day-of-year group. -/
def statsOf (vs : List ℚ) : Stats where
  Min := match vs with
    | [] => none
    | v :: t => some (t.foldl min v)
  Max := match vs with
    | [] => none
    | v :: t => some (t.foldl max v)
  SMean := match vs with
    | [] => none
    | _ :: _ => some (vs.sum / vs.length)
  STDVsq :=
    if vs.length < 2 then none
    else some ((vs.map fun v => (v - vs.sum / vs.length) ^ 2).sum / ((vs.length : ℚ) - 1))

/-- `df = df[df['DayofYear'] != 366]` (NasaData.py line 150): the leap-day
filter applied to the date-indexed rows of one column. -/
def dropLeap (rows : List (Date × ℚ)) : List (Date × ℚ) :=
  rows.filter fun r => dayOfYear r.1 ≠ 366

/-- The rows of the day-of-year group `g` after the leap-day filter
(`df.groupby('DayofYear')`, NasaData.py line 152). -/
def doyGroup (rows : List (Date × ℚ)) (g : ℕ) : List (Date × ℚ) :=
  (dropLeap rows).filter fun r => dayOfYear r.1 = g

/-- The climatology table of one column (NasaData.py lines 149-165): group
the leap-filtered rows by day-of-year (pandas sorts the group keys) and
compute the four statistics of each group. -/
def climatology (rows : List (Date × ℚ)) : List (ℕ × Stats) :=
  let keys := List.insertionSort (· ≤ ·) ((dropLeap rows).map fun r => dayOfYear r.1).dedup
  keys.map fun g => (g, statsOf ((doyGroup rows g).map Prod.snd))

/-! ### `LoadNasaData` (NasaData.py lines 133-169) -/

/-- `jdi['properties']['parameter']`: one date-keyed series per requested
parameter code. -/
abbrev Payload := List (PyStr × List (Date × ℚ))

/-- `jdi['properties']['parameter'][c]` (missing codes yield the empty
series). -/
def seriesFor (jdi : Payload) (c : PyStr) : List (Date × ℚ) :=
  (List.lookup c jdi).getD []

/-- `cmd = formulateRequest(-0.2739, 36.3765, selectparms)` (NasaData.py
line 137): the request actually issued by `LoadNasaData` — the coordinates
are hard-coded constants and `lat`, `lon` are not used. -/
def LoadNasaData_request (currentYear : ℤ) (lat lon : PyStr)
    (selectparms : Option (List PyStr)) : List (PyStr × PyStr) × List PyStr :=
  formulateRequest currentYear ("-0.2739".toList) ("36.3765".toList) selectparms

/-- `LoadNasaData(lat, lon, show, selectparms)` (NasaData.py lines 133-169).
`fetch` is the outcome of `requests.get(cmd[0]).json()` (line 139), which
has no surrounding `try`: a transport failure propagates to the caller.
Each subsequent column is re-indexed to the first column's index
(line 146) before the join, so column `c`'s values align positionally with
the first column's dates. -/
def LoadNasaData (currentYear : ℤ) (lat lon : PyStr)
    (selectparms : Option (List PyStr))
    (fetch : Except TransportFailure Payload) :
    Except TransportFailure (List (PyStr × List (ℕ × Stats))) :=
  let cmd := LoadNasaData_request currentYear lat lon selectparms
  match fetch with
  | .error e => .error e
  | .ok jdi =>
    let cols := cmd.2
    let c0 := cols.headD []
    let dates := (seriesFor jdi c0).map Prod.fst
    .ok (cols.map fun c => (c, climatology (dates.zip ((seriesFor jdi c).map Prod.snd))))

def synthetic45 : List (Date × ℚ) :=
  [(⟨2014, 2, 14⟩, 1), (⟨2015, 2, 14⟩, 2), (⟨2016, 2, 14⟩, 3), (⟨2017, 2, 14⟩, 4),
   (⟨2018, 2, 14⟩, 5), (⟨2019, 2, 14⟩, 6), (⟨2020, 2, 14⟩, 7), (⟨2021, 2, 14⟩, 8),
   (⟨2022, 2, 14⟩, 9), (⟨2023, 2, 14⟩, 10)]

def c5rows : List (Date × ℚ) := [(⟨2020, 2, 14⟩, 1), (⟨2021, 2, 14⟩, 2)]

def httpsScheme : List ℕ := [104, 116, 116, 112, 115, 58]

def isAlwaysSafe (b : ℕ) : Bool :=
  (65 ≤ b && b ≤ 90) || (97 ≤ b && b ≤ 122) || (48 ≤ b && b ≤ 57) ||
    b == 95 || b == 46 || b == 45 || b == 126

def hexDigit (n : ℕ) : ℕ := if n < 10 then 48 + n else 55 + n

def unhexDigit (c : ℕ) : ℕ := if c ≤ 57 then c - 48 else c - 55

def quotePlusByte (b : ℕ) : List ℕ :=
  if isAlwaysSafe b then [b]
  else if b = 32 then [43]
  else [37, hexDigit (b / 16), hexDigit (b % 16)]

def quotePlus : List ℕ → List ℕ
  | [] => []
  | b :: t => quotePlusByte b ++ quotePlus t

def unquotePlus : List ℕ → List ℕ
  | [] => []
  | 43 :: rest => 32 :: unquotePlus rest
  | 37 :: h :: l :: rest => (16 * unhexDigit h + unhexDigit l) :: unquotePlus rest
  | c :: rest => c :: unquotePlus rest

def urlencode (params : List (List ℕ × List ℕ)) : List ℕ :=
  joinSep 38 (params.map fun kv => quotePlus kv.1 ++ 61 :: quotePlus kv.2)

def urlunsplitHttps (netloc url0 query : List ℕ) : List ℕ :=
  let url1 := if netloc ≠ [] ∨ url0.take 2 = [47, 47] then
      [47, 47] ++ netloc ++ (if url0 ≠ [] ∧ url0.take 1 ≠ [47] then 47 :: url0 else url0)
    else url0
  let url2 := httpsScheme ++ url1
  if query ≠ [] then url2 ++ 63 :: query else url2

def buildUrl (host path : List ℕ) (parameters : List (List ℕ × List ℕ)) : List ℕ :=
  urlunsplitHttps host path (urlencode parameters)

def parseQuery : List ℕ → List (List ℕ × List ℕ)
  | [] => []
  | _ :: qs => (splitSep 38 qs).map fun kv =>
      (unquotePlus (kv.takeWhile (· != 61)),
       unquotePlus ((kv.dropWhile (· != 61)).drop 1))

def parseUrl (u : List ℕ) : Option (List ℕ × List ℕ × List (List ℕ × List ℕ)) :=
  if u.take 8 = httpsScheme ++ [47, 47] then
    some ((u.drop 8).takeWhile (· != 47),
          (((u.drop 8).dropWhile (· != 47)).takeWhile (· != 63),
           parseQuery (((u.drop 8).dropWhile (· != 47)).dropWhile (· != 63))))
  else none

/-! ### Supporting lemmas -/

theorem splitSep_ne_nil {α : Type} [DecidableEq α] (sep : α) (l : List α) :
    splitSep sep l ≠ [] := by
  cases l with
  | nil => simp [splitSep]
  | cons c cs =>
    simp only [splitSep]
    split
    · simp
    · split
      · simp
      · simp

theorem splitSep_of_not_mem {α : Type} [DecidableEq α] {sep : α} {p : List α}
    (h : sep ∉ p) : splitSep sep p = [p] := by
  induction p with
  | nil => rfl
  | cons c cs ih =>
    have hc : c ≠ sep := fun hc => h (hc ▸ List.mem_cons_self c cs)
    have hcs : sep ∉ cs := fun hm => h (List.mem_cons_of_mem c hm)
    simp only [splitSep, if_neg hc, ih hcs]

theorem splitSep_append_sep {α : Type} [DecidableEq α] {sep : α} {p rest : List α}
    (h : sep ∉ p) : splitSep sep (p ++ sep :: rest) = p :: splitSep sep rest := by
  induction p with
  | nil => simp [splitSep]
  | cons c cs ih =>
    have hc : c ≠ sep := fun hc => h (hc ▸ List.mem_cons_self c cs)
    have hcs : sep ∉ cs := fun hm => h (List.mem_cons_of_mem c hm)
    simp only [List.cons_append, splitSep, if_neg hc, List.append_eq, ih hcs]

/-- Splitting undoes joining when every part is separator-free and
the part list is non-empty. -/
theorem splitSep_joinSep {α : Type} [DecidableEq α] {sep : α} {parts : List (List α)}
    (hne : parts ≠ []) (hall : ∀ p ∈ parts, sep ∉ p) :
    splitSep sep (joinSep sep parts) = parts := by
  induction parts with
  | nil => exact absurd rfl hne
  | cons p ps ih =>
    cases ps with
    | nil =>
      simp only [joinSep]
      exact splitSep_of_not_mem (hall p (List.mem_cons_self p []))
    | cons q qs =>
      have hp : sep ∉ p := hall p (List.mem_cons_self _ _)
      have hrest : ∀ r ∈ q :: qs, sep ∉ r := fun r hr => hall r (List.mem_cons_of_mem p hr)
      simp only [joinSep, splitSep_append_sep hp, ih (by simp) hrest]

theorem lookup_cons_hit {α β : Type} [BEq α] {a k : α} {b : β} {es : List (α × β)}
    (h : (a == k) = true) : List.lookup a ((k, b) :: es) = some b := by
  simp [List.lookup, h]

theorem lookup_cons_miss {α β : Type} [BEq α] {a k : α} {b : β} {es : List (α × β)}
    (h : (a == k) = false) : List.lookup a ((k, b) :: es) = List.lookup a es := by
  simp [List.lookup, h]

theorem monthCumDays_mono (leap : Bool) {a b : ℕ} (h : a ≤ b) :
    monthCumDays leap a ≤ monthCumDays leap b := by
  induction b with
  | zero => simp [Nat.le_zero.mp h]
  | succ n ih =>
    rcases Nat.eq_or_lt_of_le h with rfl | hlt
    · exact Nat.le_refl _
    · calc monthCumDays leap a ≤ monthCumDays leap n := ih (Nat.lt_succ_iff.mp hlt)
        _ ≤ monthCumDays leap n + daysInMonth leap (n+1) := Nat.le_add_right _ _

theorem dayOfYear_le {L : Bool} {m day : ℕ} (hm : 1 ≤ m)
    (hdim : day ≤ daysInMonth L m) :
    monthCumDays L (m-1) + day ≤ monthCumDays L m := by
  obtain ⟨k, rfl⟩ : ∃ k, m = k + 1 := ⟨m - 1, by omega⟩
  have h : monthCumDays L (k+1) = monthCumDays L k + daysInMonth L (k+1) := rfl
  simp only [Nat.add_sub_cancel]
  omega

theorem dayOfYear_inj {d1 d2 : Date} (h1 : ValidDate d1) (h2 : ValidDate d2)
    (hy : d1.year = d2.year) (hd : dayOfYear d1 = dayOfYear d2) : d1 = d2 := by
  obtain ⟨y1, m1, a1⟩ := d1
  obtain ⟨y2, m2, a2⟩ := d2
  simp only [ValidDate] at h1 h2
  obtain ⟨hm1, hm1b, ha1, ha1b⟩ := h1
  obtain ⟨hm2, hm2b, ha2, ha2b⟩ := h2
  simp only at hy
  subst hy
  simp only [dayOfYear] at hd ha1b ha2b ⊢
  rcases Nat.lt_trichotomy m1 m2 with h | h | h
  · exfalso
    have hb1 : monthCumDays (isLeap y1) (m1-1) + a1 ≤ monthCumDays (isLeap y1) m1 :=
      dayOfYear_le hm1 ha1b
    have hmm : monthCumDays (isLeap y1) m1 ≤ monthCumDays (isLeap y1) (m2-1) :=
      monthCumDays_mono _ (by omega)
    omega
  · subst h
    have : a1 = a2 := by omega
    subst this
    rfl
  · exfalso
    have hb2 : monthCumDays (isLeap y1) (m2-1) + a2 ≤ monthCumDays (isLeap y1) m2 :=
      dayOfYear_le hm2 ha2b
    have hmm : monthCumDays (isLeap y1) m2 ≤ monthCumDays (isLeap y1) (m1-1) :=
      monthCumDays_mono _ (by omega)
    omega

theorem climatology_keys_ne366 (rows : List (Date × ℚ)) :
    ∀ gs ∈ climatology rows, gs.1 ≠ 366 := by
  intro gs hgs
  simp only [climatology, List.mem_map] at hgs
  obtain ⟨g, hg, rfl⟩ := hgs
  have hmem : g ∈ ((dropLeap rows).map fun r => dayOfYear r.1).dedup :=
    (List.perm_insertionSort (· ≤ ·) _).mem_iff.mp hg
  rw [List.mem_dedup, List.mem_map] at hmem
  obtain ⟨r, hr, rfl⟩ := hmem
  have := List.of_mem_filter hr
  simpa using this

theorem unquotePlus_pct (h l : ℕ) (t : List ℕ) :
    unquotePlus (37 :: h :: l :: t) = (16 * unhexDigit h + unhexDigit l) :: unquotePlus t :=
  rfl

theorem unquotePlus_other {c : ℕ} (t : List ℕ) (hc43 : c ≠ 43) (hc37 : c ≠ 37) :
    unquotePlus (c :: t) = c :: unquotePlus t := by
  rw [unquotePlus.eq_def]
  split <;> simp_all

theorem unhex_hex {n : ℕ} (h : n < 16) : unhexDigit (hexDigit n) = n := by
  unfold hexDigit unhexDigit
  split_ifs <;> omega

theorem hexDigit_ne (n : ℕ) : hexDigit n ≠ 38 ∧ hexDigit n ≠ 61 := by
  unfold hexDigit
  split_ifs <;> omega

theorem isAlwaysSafe_range {b : ℕ} (h : isAlwaysSafe b = true) :
    b ≠ 38 ∧ b ≠ 61 ∧ b ≠ 43 ∧ b ≠ 37 := by
  unfold isAlwaysSafe at h
  simp only [Bool.or_eq_true, Bool.and_eq_true, decide_eq_true_eq, beq_iff_eq] at h
  omega

theorem quotePlusByte_ne {b c : ℕ} (hc : c ∈ quotePlusByte b) : c ≠ 38 ∧ c ≠ 61 := by
  unfold quotePlusByte at hc
  split_ifs at hc with h1 h2
  · rw [List.mem_singleton] at hc
    subst hc
    have h := isAlwaysSafe_range h1
    exact ⟨h.1, h.2.1⟩
  · rw [List.mem_singleton] at hc
    omega
  · simp only [List.mem_cons, List.mem_singleton, List.not_mem_nil, or_false] at hc
    rcases hc with rfl | rfl | rfl
    · omega
    · exact hexDigit_ne _
    · exact hexDigit_ne _

theorem quotePlus_ne {s : List ℕ} : ∀ c ∈ quotePlus s, c ≠ 38 ∧ c ≠ 61 := by
  induction s with
  | nil => intro c hc; cases hc
  | cons b t ih =>
    intro c hc
    rw [quotePlus, List.mem_append] at hc
    rcases hc with hc | hc
    · exact quotePlusByte_ne hc
    · exact ih c hc

theorem unquotePlus_quotePlusByte {b : ℕ} (hb : b < 256) (t : List ℕ) :
    unquotePlus (quotePlusByte b ++ t) = b :: unquotePlus t := by
  unfold quotePlusByte
  split_ifs with h1 h2
  · have h := isAlwaysSafe_range h1
    rw [List.singleton_append, unquotePlus_other t h.2.2.1 h.2.2.2]
  · subst h2
    rfl
  · rw [List.cons_append, List.cons_append, List.cons_append, List.nil_append,
      unquotePlus_pct, unhex_hex (by omega), unhex_hex (by omega)]
    congr 1
    omega

theorem unquotePlus_quotePlus {s : List ℕ} (hs : ∀ b ∈ s, b < 256) :
    unquotePlus (quotePlus s) = s := by
  induction s with
  | nil => rfl
  | cons b t ih =>
    rw [quotePlus, unquotePlus_quotePlusByte (hs b (List.mem_cons_self _ _)),
      ih fun x hx => hs x (List.mem_cons_of_mem _ hx)]

theorem takeWhile_append_all {α : Type} (p : α → Bool) {l1 l2 : List α}
    (h : ∀ a ∈ l1, p a = true) :
    (l1 ++ l2).takeWhile p = l1 ++ l2.takeWhile p := by
  induction l1 with
  | nil => simp
  | cons a t ih =>
    have ha := h a (List.mem_cons_self _ _)
    have iht := ih fun x hx => h x (List.mem_cons_of_mem _ hx)
    simp [List.takeWhile_cons, ha, iht]

theorem dropWhile_append_all {α : Type} (p : α → Bool) {l1 l2 : List α}
    (h : ∀ a ∈ l1, p a = true) :
    (l1 ++ l2).dropWhile p = l2.dropWhile p := by
  induction l1 with
  | nil => simp
  | cons a t ih =>
    have ha := h a (List.mem_cons_self _ _)
    have iht := ih fun x hx => h x (List.mem_cons_of_mem _ hx)
    simp [List.dropWhile_cons, ha, iht]

/-! ### The claims -/

/-- C1: for every call of `formulateRequest` made in calendar year `C`, the
`start` query parameter is the string of `C - 10` followed by `0101` and the
`end` parameter the string of `C - 1` followed by `1231` — the ten full
calendar years ending with the last complete year, recomputed from the
wall-clock year passed on each call. -/
theorem claim_C1 (C : ℤ) (lat lon : PyStr) (sel : Option (List PyStr)) :
    List.lookup "start".toList (formulateRequest C lat lon sel).1
      = some (intToStr (C - 10) ++ "0101".toList) ∧
    List.lookup "end".toList (formulateRequest C lat lon sel).1
      = some (intToStr (C - 1) ++ "1231".toList) := by
  have h : C - 1 - 9 = C - 10 := by ring
  simp only [formulateRequest]
  rw [lookup_cons_miss (by decide), lookup_cons_hit (by decide)]
  rw [lookup_cons_miss (by decide), lookup_cons_miss (by decide), lookup_cons_hit (by decide)]
  rw [h]
  exact ⟨rfl, rfl⟩

/-- C2: `getSiteElevation` and `formulateRequest` pass the caller's latitude
and longitude through, unvalidated and unmodified, into the query they
formulate; `LoadNasaData` does not — the request it formulates (line 137)
carries the hard-coded latitude `-0.2739` even when the caller supplies
latitude `10` and longitude `20`, so the claim fails on `LoadNasaData`. -/
theorem claim_C2 :
    (∀ lat lon : PyStr,
        List.lookup "latitude".toList (getSiteElevation_query lat lon) = some lat ∧
        List.lookup "longitude".toList (getSiteElevation_query lat lon) = some lon) ∧
    (∀ (C : ℤ) (lat lon : PyStr) (sel : Option (List PyStr)),
        List.lookup "latitude".toList (formulateRequest C lat lon sel).1 = some lat ∧
        List.lookup "longitude".toList (formulateRequest C lat lon sel).1 = some lon) ∧
    (List.lookup "latitude".toList (LoadNasaData_request 2025 "10".toList "20".toList none).1
        = some "-0.2739".toList ∧
     ("-0.2739".toList : PyStr) ≠ "10".toList) := by
  refine ⟨fun lat lon => ?_, fun C lat lon sel => ?_, ?_, by decide⟩
  · unfold getSiteElevation_query
    rw [lookup_cons_miss (by decide), lookup_cons_miss (by decide),
      lookup_cons_miss (by decide), lookup_cons_miss (by decide),
      lookup_cons_miss (by decide), lookup_cons_hit (by decide)]
    rw [lookup_cons_miss (by decide), lookup_cons_miss (by decide),
      lookup_cons_miss (by decide), lookup_cons_miss (by decide),
      lookup_cons_miss (by decide), lookup_cons_miss (by decide), lookup_cons_hit (by decide)]
    exact ⟨rfl, rfl⟩
  · simp only [formulateRequest]
    rw [lookup_cons_miss (by decide), lookup_cons_miss (by decide),
      lookup_cons_miss (by decide), lookup_cons_miss (by decide),
      lookup_cons_miss (by decide), lookup_cons_hit (by decide)]
    rw [lookup_cons_miss (by decide), lookup_cons_miss (by decide),
      lookup_cons_miss (by decide), lookup_cons_miss (by decide),
      lookup_cons_miss (by decide), lookup_cons_miss (by decide), lookup_cons_hit (by decide)]
    exact ⟨rfl, rfl⟩
  · unfold LoadNasaData_request
    simp only [formulateRequest]
    rw [lookup_cons_miss (by decide), lookup_cons_miss (by decide),
      lookup_cons_miss (by decide), lookup_cons_miss (by decide),
      lookup_cons_miss (by decide), lookup_cons_hit (by decide)]

/-- C3, counterexample: with the empty selection (a set of codes), the code
list returned by `formulateRequest` is `[""]` — Python's
`"".split(',') == ['']` — which is not a subset of the six canonical codes,
refuting the claim as stated. -/
theorem claim_C3_counterexample :
    (formulateRequest 2025 [] [] (some [])).2 = [([] : PyStr)] ∧
    ([] : PyStr) ∉ stdparmCodes := by
  constructor
  · simp only [formulateRequest]
    decide
  · decide

/-- C3, amended: for a selection argument that is `None` or a non-empty
subset of the six canonical codes, the code list returned by
`formulateRequest` is a non-empty subset of the canonical codes in their
canonical order whose members are exactly the caller's selection, and the
URL's `parameters` value is the comma-join of that list; in particular
selecting `T10M` and `WS10M` yields exactly those two codes, in that
relative order, in both the `parameters` value and the returned list. -/
theorem claim_C3_amended :
    (∀ (C : ℤ) (lat lon : PyStr),
        (formulateRequest C lat lon none).2 = stdparmCodes ∧
        List.lookup "parameters".toList (formulateRequest C lat lon none).1
          = some (joinSep ',' stdparmCodes)) ∧
    (∀ (C : ℤ) (lat lon : PyStr) (sel : List PyStr),
        sel ≠ [] → (∀ c ∈ sel, c ∈ stdparmCodes) →
        (formulateRequest C lat lon (some sel)).2 ≠ [] ∧
        ((formulateRequest C lat lon (some sel)).2).Sublist stdparmCodes ∧
        (∀ c, c ∈ (formulateRequest C lat lon (some sel)).2 ↔ c ∈ sel) ∧
        List.lookup "parameters".toList (formulateRequest C lat lon (some sel)).1
          = some (joinSep ',' (formulateRequest C lat lon (some sel)).2)) ∧
    ((formulateRequest 2025 [] [] (some ["T10M".toList, "WS10M".toList])).2
        = ["T10M".toList, "WS10M".toList] ∧
     List.lookup "parameters".toList
        (formulateRequest 2025 [] [] (some ["T10M".toList, "WS10M".toList])).1
        = some "T10M,WS10M".toList) := by
  have hcf : ∀ p ∈ stdparmCodes, ',' ∉ p := by decide
  refine ⟨fun C lat lon => ⟨?_, ?_⟩, fun C lat lon sel hne hsub => ?_, ?_, ?_⟩
  · simp only [formulateRequest]; decide
  · simp only [formulateRequest]
    rw [lookup_cons_hit (by decide)]
    decide
  · have hcommafree : ∀ p ∈ stdparmCodes.filter (fun c => decide (c ∈ sel)), ',' ∉ p :=
      fun p hp => hcf p (List.mem_of_mem_filter hp)
    obtain ⟨c, hc⟩ : ∃ c, c ∈ sel := by
      cases sel with
      | nil => exact absurd rfl hne
      | cons a t => exact ⟨a, List.mem_cons_self a t⟩
    have hcparms : c ∈ stdparmCodes.filter (fun c => decide (c ∈ sel)) :=
      List.mem_filter.mpr ⟨hsub c hc, decide_eq_true hc⟩
    have hpne : stdparmCodes.filter (fun c => decide (c ∈ sel)) ≠ [] :=
      List.ne_nil_of_mem hcparms
    have hcodes : (formulateRequest C lat lon (some sel)).2
        = stdparmCodes.filter (fun c => decide (c ∈ sel)) :=
      splitSep_joinSep hpne hcommafree
    refine ⟨?_, ?_, ?_, ?_⟩
    · rw [hcodes]; exact hpne
    · rw [hcodes]; exact List.filter_sublist _
    · intro x
      rw [hcodes, List.mem_filter]
      exact ⟨fun h => of_decide_eq_true h.2, fun h => ⟨hsub x h, decide_eq_true h⟩⟩
    · rw [hcodes]
      simp only [formulateRequest]
      rw [lookup_cons_hit (by decide)]
  · simp only [formulateRequest]; decide
  · simp only [formulateRequest]
    rw [lookup_cons_hit (by decide)]
    decide

/-- C3, witness: the amended theorem applied to the concrete selection
containing exactly `T10M`. -/
theorem claim_C3_witness :
    (["T10M".toList] : List PyStr) ≠ [] ∧
    (∀ c ∈ (["T10M".toList] : List PyStr), c ∈ stdparmCodes) ∧
    ((formulateRequest 2025 [] [] (some ["T10M".toList])).2 ≠ [] ∧
     ((formulateRequest 2025 [] [] (some ["T10M".toList])).2).Sublist stdparmCodes ∧
     (∀ c, c ∈ (formulateRequest 2025 [] [] (some ["T10M".toList])).2
        ↔ c ∈ (["T10M".toList] : List PyStr)) ∧
     List.lookup "parameters".toList (formulateRequest 2025 [] [] (some ["T10M".toList])).1
       = some (joinSep ',' (formulateRequest 2025 [] [] (some ["T10M".toList])).2)) :=
  ⟨by decide, by decide, claim_C3_amended.2.1 2025 [] [] ["T10M".toList] (by decide) (by decide)⟩

/-- C6: a response whose `geometry.coordinates` is `[36.0, -0.27, -999]`
makes the elevation parser return the unknown triple, and a response with
`[36.0, -0.27, 450]` returns exactly `(36.0, -0.27, 450)`. -/
theorem claim_C6 :
    (getLocationData ⟨some ⟨some (36, -27/100, -999)⟩⟩).1 = (none, none, none) ∧
    (getLocationData ⟨some ⟨some (36, -27/100, 450)⟩⟩).1
      = (some 36, some (-27/100), some 450) := by
  constructor <;> norm_num [getLocationData]

/-- C7: the claim states that a valid elevation of exactly `0` (distinct
from the `-999` sentinel) is returned as-is; the code's truthiness guard
`if (coords[2] and ...)` instead returns the unknown triple on the
coordinates `[36.0, -0.27, 0]`, so the code diverges from the claim. -/
theorem claim_C7 :
    (getLocationData ⟨some ⟨some (36, -27/100, 0)⟩⟩).1 = (none, none, none) ∧
    (0 : ℚ) ≠ -999 := by
  constructor
  · norm_num [getLocationData]
  · norm_num

/-- C8: for every JSON response in which the `geometry.coordinates` key
path is absent, the elevation parser returns `(None, None, None)` together
with its diagnostic message, and (being a total function here) raises no
exception past its boundary. -/
theorem claim_C8 (resp : NasaResponse)
    (h : resp.geometry = none ∨ ∃ g, resp.geometry = some g ∧ g.coordinates = none) :
    getLocationData resp = ((none, none, none), ["Failed to parse elevation response"]) := by
  rcases h with h | ⟨g, hg, hc⟩
  · simp only [getLocationData, h]
  · simp only [getLocationData, hg, hc]

/-- C8, witness: the theorem applied to the concrete response with no
`geometry` key. -/
theorem claim_C8_witness :
    (NasaResponse.mk none).geometry = none ∧
    getLocationData ⟨none⟩ = ((none, none, none), ["Failed to parse elevation response"]) :=
  ⟨rfl, claim_C8 ⟨none⟩ (Or.inl rfl)⟩

/-- C9: a transport failure makes `getSiteElevation` return the unknown
triple rather than raising, while a transport failure during the
climatology request of `LoadNasaData` is unhandled and propagates to the
caller. -/
theorem claim_C9 :
    (∀ (lat lon : PyStr) (e : TransportFailure),
        getSiteElevation lat lon (.error e) = (none, none, none)) ∧
    (∀ (C : ℤ) (lat lon : PyStr) (sel : Option (List PyStr)) (e : TransportFailure),
        LoadNasaData C lat lon sel (.error e) = .error e) :=
  ⟨fun _ _ _ => rfl, fun _ _ _ _ _ => rfl⟩

/-- C4: for the synthetic series whose single day-of-year group (key 45)
holds the values 1..10 across ten years, the aggregation computes
`Min = 1`, `Max = 10`, mean `11/2` and unbiased (n-1) sample variance
`55/6`, whose square root — the reported standard deviation — lies
strictly between `3.0276` and `3.0277`; and a group with exactly one
contributing value has a not-a-number (`none`) standard deviation rather
than zero. -/
theorem claim_C4 :
    List.lookup 45 (climatology synthetic45)
      = some ⟨some 1, some 10, some (11/2), some (55/6)⟩ ∧
    ((30276 : ℚ)/10000)^2 < 55/6 ∧ ((55 : ℚ)/6) < ((30277 : ℚ)/10000)^2 ∧
    (∀ v : ℚ, (statsOf [v]).STDVsq = none) := by
  have h1 : climatology synthetic45 = [(45, statsOf [1,2,3,4,5,6,7,8,9,10])] := rfl
  have h2 : statsOf [1,2,3,4,5,6,7,8,9,10]
      = ⟨some 1, some 10, some (11/2), some (55/6)⟩ := by
    norm_num [statsOf, min_def, max_def]
  refine ⟨?_, by norm_num, by norm_num, fun v => by simp [statsOf]⟩
  rw [h1, h2]
  rfl

/-- C5: every row whose derived day-of-year is 366 is removed before
grouping, so no day-of-year key 366 appears in any climatology table of a
`LoadNasaData` result; and for rows with valid, pairwise-distinct dates,
every day-of-year group holds at most one value per contributing year. -/
theorem claim_C5 :
    (∀ (C : ℤ) (lat lon : PyStr) (sel : Option (List PyStr)) (jdi : Payload)
        (tbl : List (PyStr × List (ℕ × Stats))),
        LoadNasaData C lat lon sel (.ok jdi) = .ok tbl →
        ∀ ct ∈ tbl, ∀ gs ∈ ct.2, gs.1 ≠ 366) ∧
    (∀ rows : List (Date × ℚ), (∀ r ∈ rows, ValidDate r.1) →
        rows.Pairwise (fun a b => a.1 ≠ b.1) →
        ∀ g, (doyGroup rows g).Pairwise (fun a b => a.1.year ≠ b.1.year)) := by
  constructor
  · intro C lat lon sel jdi tbl h ct hct gs hgs
    simp only [LoadNasaData] at h
    injection h with h
    subst h
    rw [List.mem_map] at hct
    obtain ⟨c, hc, rfl⟩ := hct
    exact climatology_keys_ne366 _ gs hgs
  · intro rows hvalid hnd g
    have hpw : (doyGroup rows g).Pairwise (fun a b => a.1 ≠ b.1) :=
      (hnd.filter _).filter _
    refine hpw.imp_of_mem ?_
    intro a b ha hb hne hyr
    have hga := List.of_mem_filter ha
    have hgb := List.of_mem_filter hb
    have hda : dayOfYear a.1 = g := by simpa using hga
    have hdb : dayOfYear b.1 = g := by simpa using hgb
    have hav : ValidDate a.1 :=
      hvalid a (List.mem_of_mem_filter (List.mem_of_mem_filter ha))
    have hbv : ValidDate b.1 :=
      hvalid b (List.mem_of_mem_filter (List.mem_of_mem_filter hb))
    exact hne (dayOfYear_inj hav hbv hyr (hda.trans hdb.symm))

/-- C5, witness: the theorem applied to a concrete two-row series and to a
concrete `LoadNasaData` result. -/
theorem claim_C5_witness :
    ((∀ r ∈ c5rows, ValidDate r.1) ∧
     c5rows.Pairwise (fun a b => a.1 ≠ b.1) ∧
     (doyGroup c5rows 45).Pairwise (fun a b => a.1.year ≠ b.1.year)) ∧
    (LoadNasaData 2025 [] [] none (.ok []) =
        .ok (stdparmCodes.map fun c => (c, ([] : List (ℕ × Stats)))) ∧
     ∀ ct ∈ (stdparmCodes.map fun c => (c, ([] : List (ℕ × Stats)))),
        ∀ gs ∈ ct.2, gs.1 ≠ 366) :=
  ⟨⟨by decide, by decide, claim_C5.2 c5rows (by decide) (by decide) 45⟩,
   ⟨rfl, claim_C5.1 2025 [] [] none [] _ rfl⟩⟩

/-- C10: round trip — for every non-empty host without `/`, absolute path
without `?`, and parameter mapping of byte strings, parsing the URL built
by `buildUrl` recovers the same host, the same path, and the same
parameter mapping in the same order, the values decoded from their
percent-encoding. -/
theorem claim_C10 (host path : List ℕ) (params : List (List ℕ × List ℕ))
    (hhost_ne : host ≠ [])
    (hhost : ∀ b ∈ host, b ≠ 47)
    (habs : path.take 1 = [47])
    (hpath : ∀ b ∈ path, b ≠ 63)
    (hbytes : ∀ kv ∈ params, (∀ b ∈ kv.1, b < 256) ∧ (∀ b ∈ kv.2, b < 256)) :
    parseUrl (buildUrl host path params) = some (host, path, params) := by
  obtain ⟨p2, rfl⟩ : ∃ t, path = 47 :: t := by
    cases path with
    | nil => simp at habs
    | cons a t =>
      simp only [List.take_succ_cons, List.take_zero] at habs
      exact ⟨t, by rw [List.cons.injEq] at habs; rw [habs.1]⟩
  have hhostb : ∀ b ∈ host, (b != 47) = true := fun b hb => by
    simpa using hhost b hb
  have hpathb : ∀ b ∈ 47 :: p2, (b != 63) = true := fun b hb => by
    simpa using hpath b hb
  cases params with
  | nil =>
    have hu : buildUrl host (47 :: p2) [] = httpsScheme ++ 47 :: 47 :: (host ++ 47 :: p2) := by
      unfold buildUrl urlunsplitHttps
      rw [show urlencode ([] : List (List ℕ × List ℕ)) = [] from rfl]
      rw [if_neg (show ¬(([] : List ℕ) ≠ []) by simp), if_pos (Or.inl hhost_ne),
        if_neg (show ¬((47 :: p2) ≠ [] ∧ List.take 1 (47 :: p2) ≠ [47]) by simp)]
      simp
    rw [hu]
    unfold parseUrl parseQuery
    rw [if_pos (show (httpsScheme ++ 47 :: 47 :: (host ++ 47 :: p2)).take 8
        = httpsScheme ++ [47, 47] from rfl)]
    have hA : ((httpsScheme ++ 47 :: 47 :: (host ++ 47 :: p2)).drop 8).takeWhile (· != 47)
        = host := by
      show (host ++ 47 :: p2).takeWhile (· != 47) = host
      rw [takeWhile_append_all _ hhostb]
      simp
    have hB : ((httpsScheme ++ 47 :: 47 :: (host ++ 47 :: p2)).drop 8).dropWhile (· != 47)
        = 47 :: p2 := by
      show (host ++ 47 :: p2).dropWhile (· != 47) = 47 :: p2
      rw [dropWhile_append_all _ hhostb]
      simp
    rw [hA, hB]
    have hC : (47 :: p2).takeWhile (· != 63) = 47 :: p2 := by
      have := @takeWhile_append_all ℕ (· != 63) (47 :: p2) [] hpathb
      simpa using this
    have hD : (47 :: p2).dropWhile (· != 63) = [] := by
      have := @dropWhile_append_all ℕ (· != 63) (47 :: p2) [] hpathb
      simpa using this
    rw [hC, hD]
  | cons kv rest =>
    set q := urlencode (kv :: rest) with hq
    have hqparts : q = joinSep 38 ((kv :: rest).map fun kv => quotePlus kv.1 ++ 61 :: quotePlus kv.2) := rfl
    have hqne : q ≠ [] := by
      rw [hqparts]
      cases rest with
      | nil => simp [joinSep]
      | cons r rs => simp [joinSep]
    have hu : buildUrl host (47 :: p2) (kv :: rest)
        = httpsScheme ++ 47 :: 47 :: (host ++ 47 :: (p2 ++ 63 :: q)) := by
      unfold buildUrl urlunsplitHttps
      rw [← hq, if_pos (Or.inl hhost_ne), if_pos hqne,
        if_neg (show ¬((47 :: p2) ≠ [] ∧ List.take 1 (47 :: p2) ≠ [47]) by simp)]
      simp
    rw [hu]
    unfold parseUrl
    rw [if_pos (show (httpsScheme ++ 47 :: 47 :: (host ++ 47 :: (p2 ++ 63 :: q))).take 8
        = httpsScheme ++ [47, 47] from rfl)]
    have hA : ((httpsScheme ++ 47 :: 47 :: (host ++ 47 :: (p2 ++ 63 :: q))).drop 8).takeWhile (· != 47)
        = host := by
      show (host ++ 47 :: (p2 ++ 63 :: q)).takeWhile (· != 47) = host
      rw [takeWhile_append_all _ hhostb]
      simp
    have hB : ((httpsScheme ++ 47 :: 47 :: (host ++ 47 :: (p2 ++ 63 :: q))).drop 8).dropWhile (· != 47)
        = 47 :: (p2 ++ 63 :: q) := by
      show (host ++ 47 :: (p2 ++ 63 :: q)).dropWhile (· != 47) = 47 :: (p2 ++ 63 :: q)
      rw [dropWhile_append_all _ hhostb]
      simp
    rw [hA, hB]
    have hC : (47 :: (p2 ++ 63 :: q)).takeWhile (· != 63) = 47 :: p2 := by
      have h1 : 47 :: (p2 ++ 63 :: q) = (47 :: p2) ++ 63 :: q := by simp
      rw [h1, takeWhile_append_all _ hpathb]
      simp
    have hD : (47 :: (p2 ++ 63 :: q)).dropWhile (· != 63) = 63 :: q := by
      have h1 : 47 :: (p2 ++ 63 :: q) = (47 :: p2) ++ 63 :: q := by simp
      rw [h1, dropWhile_append_all _ hpathb]
      simp
    rw [hC, hD]
    have hE : parseQuery (63 :: q) = kv :: rest := by
      show ((splitSep 38 q).map fun s =>
          (unquotePlus (s.takeWhile (· != 61)),
           unquotePlus ((s.dropWhile (· != 61)).drop 1))) = kv :: rest
      have h38 : ∀ part ∈ (kv :: rest).map fun kv => quotePlus kv.1 ++ 61 :: quotePlus kv.2,
          (38 : ℕ) ∉ part := by
        intro part hpart
        rw [List.mem_map] at hpart
        obtain ⟨ab, hab, rfl⟩ := hpart
        intro hmem
        rw [List.mem_append, List.mem_cons] at hmem
        rcases hmem with h | h | h
        · exact (quotePlus_ne _ h).1 rfl
        · omega
        · exact (quotePlus_ne _ h).1 rfl
      rw [hqparts, splitSep_joinSep (by simp) h38, List.map_map]
      have hid : ∀ ab ∈ (kv :: rest),
          ((fun s => (unquotePlus (s.takeWhile (· != 61)),
              unquotePlus ((s.dropWhile (· != 61)).drop 1))) ∘
            fun kv => quotePlus kv.1 ++ 61 :: quotePlus kv.2) ab = ab := by
        intro ab hab
        have hk61 : ∀ b ∈ quotePlus ab.1, (b != 61) = true := fun b hb => by
          simpa using (quotePlus_ne b hb).2
        simp only [Function.comp_apply]
        rw [takeWhile_append_all _ hk61, dropWhile_append_all _ hk61]
        simp only [List.takeWhile_cons, List.dropWhile_cons]
        norm_num
        rw [unquotePlus_quotePlus (hbytes ab hab).1, unquotePlus_quotePlus (hbytes ab hab).2]
      rw [List.map_congr_left hid]
      simp
    rw [hE]

/-- C10, witness: the round trip at a concrete host, path and parameter
mapping whose value contains a space and a slash. -/
theorem claim_C10_witness :
    (([110] : List ℕ) ≠ [] ∧ (∀ b ∈ ([110] : List ℕ), b ≠ 47) ∧
     (([47, 97] : List ℕ).take 1 = [47]) ∧ (∀ b ∈ ([47, 97] : List ℕ), b ≠ 63) ∧
     (∀ kv ∈ ([(([107] : List ℕ), ([32, 47] : List ℕ))] : List (List ℕ × List ℕ)),
        (∀ b ∈ kv.1, b < 256) ∧ (∀ b ∈ kv.2, b < 256))) ∧
    parseUrl (buildUrl [110] [47, 97] [([107], [32, 47])])
      = some ([110], [47, 97], [([107], [32, 47])]) :=
  ⟨⟨by decide, by decide, by decide, by decide, by decide⟩,
   claim_C10 [110] [47, 97] [([107], [32, 47])]
     (by decide) (by decide) (by decide) (by decide) (by decide)⟩

end SolarPV
